import Mathlib

/-!
# Verification of the antd-rush resolution core

A shallow embedding of the hover/completion resolution core of the
`vscode-antd-rush` extension (files `HoverProvider` and `CompletionItem.ts`),
together with proofs of the specification's testable properties.

External collaborators (the editor's definition-lookup services, the syntax
tree walker, the static catalogs) are modelled as explicit environment
fields. JavaScript exceptions (a `throw` of the descriptive
`antdRushErrorMsg`, or a `TypeError` from a property access on `undefined`)
are modelled with `Except`; a JavaScript `undefined`/`null` result is
modelled with `Option`.
-/

namespace AntdRush

/-- A resolved definition location; only its document path matters here. -/
structure Location where
  path : String
deriving DecidableEq

/-- One documentation record of a prop/handler
(`{ description, type, default, version }`). -/
structure PropDoc where
  description : String
  type : String
  dflt : String
  version : String
deriving DecidableEq

/-- One catalog entry of `antdComponentMap`: the component's supported
handler names (`methods`), possibly absent. -/
structure ComponentInfo where
  methods : Option (List String)
deriving DecidableEq

/-- Result of the symbol classifier `getAstNodeType`. -/
inductive NodeType
  | component
  | props
deriving DecidableEq

/-- A raised JavaScript error: either the descriptive internal-consistency
error produced by `antdRushErrorMsg`, or a generic `TypeError` from reading
a property of `undefined`. -/
inductive JsError
  | antdRushError (msg : String)
  | typeError
deriving DecidableEq

/-- A hover card: either the props card (four documentation fields) or the
component card (canonical name plus its raw documentation tables). -/
inductive Hover
  | propsCard (description type dflt version : String)
  | componentCard (comName : String) (tables : List String)
deriving DecidableEq

/-- `normalizeName`: `raw.split('.').join('').toLowerCase()` — remove every
`'.'` character, lowercase the rest. -/
def normalizeName (raw : String) : String :=
  String.mk ((raw.data.filter (fun c => c != '.')).map Char.toLower)

/-- `fuzzySearchComponentMapping`: first catalog key equal to the fuzzy name
under normalization (`Object.keys(...).find(...)`), else `null`. -/
def fuzzySearchComponentMapping (keys : List String) (fuzzyName : String) :
    Option String :=
  keys.find? (fun com => normalizeName com == normalizeName fuzzyName)

/-- `tryMatchComponentName`: three-tier match of a symbol name and a folder
name against the catalog keys — exact symbol match, then exact folder match,
then the concatenation `libName + symbolName`. -/
def tryMatchComponentName (keys : List String) (symbolName libName : String) :
    Option String :=
  match keys.find? (fun com => normalizeName com == normalizeName symbolName) with
  | some exactKey => some exactKey
  | none =>
    match keys.find? (fun com => normalizeName com == normalizeName libName) with
    | some libKey => some libKey
    | none =>
      keys.find? (fun com => normalizeName com == normalizeName (libName ++ symbolName))

/-- `getDefinitionInAntdModule`: filter the definition and type-definition
locations by `matchNodeModules`, prefer the first surviving type definition,
else the first surviving definition, else `null`. -/
def getDefinitionInAntdModule (matchNodeModules : String → Bool)
    (definitions typeDefinitions : List Location) : Option Location :=
  let definitionsUnderAntd := definitions.filter (fun d => matchNodeModules d.path)
  let typeDefinitionsUnderAntd := typeDefinitions.filter (fun d => matchNodeModules d.path)
  match typeDefinitionsUnderAntd with
  | t :: _ => some t
  | [] =>
    match definitionsUnderAntd with
    | d :: _ => some d
    | [] => none

/-- `getAstNodeType`: `name[0].toUpperCase() !== name[0] ? 'props' :
'component'`. On the empty string `name[0]` is `undefined` and the
`toUpperCase()` call throws, modelled as `none`. -/
def getAstNodeType (name : String) : Option NodeType :=
  match name.data with
  | [] => none
  | c :: _ => some (if c.toUpper ≠ c then NodeType.props else NodeType.component)

/-- The environment of one hover request: the inputs the provider reads and
the external collaborators it calls.

`token` is the cancellation signal stored by the provider's constructor.
`matchNodeModules` is modelled from the spec: the utility (its source is in
`utils`, outside the embedded files) that decides whether a path lies inside
the target library's installed module path. `getContainerSymbolAtLocation`,
`getClosetAntdJsxElementNode` and `matchAntdModule` are likewise external
collaborators, modelled at their interface; `getClosetAntdJsxElementNode`
takes no varying argument within one request, so it is a plain optional
component name here. The three static tables are association lists for the
configured display language. -/
structure HoverEnv where
  token : Bool
  propText : String
  definitions : List Location
  typeDefinitions : List Location
  matchNodeModules : String → Bool
  getContainerSymbolAtLocation : Location → Option String
  getClosetAntdJsxElementNode : Option String
  matchAntdModule : String → Option String
  antdComponentMap : List (String × ComponentInfo)
  antdDocJson : List (String × List (String × PropDoc))
  rawTableJson : List (String × List String)

/-- `provideHover`: resolve the definition location, classify the container
symbol, then produce the props card or the component card. A `throw` of
`antdRushErrorMsg` is `Except.error (.antdRushError _)`; a property access on
`undefined` (`matchedComponent[propText].description`,
`rawTableJson[lang][comName].map`, `name[0].toUpperCase()`) is
`Except.error .typeError`; a plain `return` is `.ok none`. -/
def provideHover (env : HoverEnv) : Except JsError (Option Hover) :=
  let keys := env.antdComponentMap.map Prod.fst
  match getDefinitionInAntdModule env.matchNodeModules env.definitions env.typeDefinitions with
  | none => Except.ok none
  | some definitionLoc =>
    match env.getContainerSymbolAtLocation definitionLoc with
    | none => Except.ok none
    | some interaceName =>
      match getAstNodeType interaceName with
      | none => Except.error JsError.typeError
      | some NodeType.props =>
        match env.getClosetAntdJsxElementNode with
        | none => Except.ok none
        | some antdComponentName =>
          match fuzzySearchComponentMapping keys antdComponentName with
          | none => Except.ok none
          | some fuzzyComponentName =>
            match List.lookup fuzzyComponentName env.antdDocJson with
            | none =>
              Except.error
                (JsError.antdRushError ("did not match component for " ++ fuzzyComponentName))
            | some matchedComponent =>
              match List.lookup env.propText matchedComponent with
              | none => Except.error JsError.typeError
              | some d => Except.ok (some (Hover.propsCard d.description d.type d.dflt d.version))
      | some NodeType.component =>
        match env.matchAntdModule definitionLoc.path with
        | none => Except.ok none
        | some componentFolder =>
          match tryMatchComponentName keys interaceName componentFolder with
          | none => Except.ok none
          | some comName =>
            match List.lookup comName env.antdComponentMap with
            | none =>
              Except.error (JsError.antdRushError ("did not match component for " ++ comName))
            | some _ =>
              match List.lookup comName env.rawTableJson with
              | none => Except.error JsError.typeError
              | some tables => Except.ok (some (Hover.componentCard comName tables))

/-- The completion insertion styles. -/
inductive InsertKind
  | direct
  | inquiry
deriving DecidableEq

/-- `insertKindMapping`: the static object `{ '!': 'direct', '#': 'inquiry' }`;
indexing with any other key yields `undefined`, modelled as `none`. -/
def insertKindMapping (k : String) : Option InsertKind :=
  if k == "!" then some InsertKind.direct
  else if k == "#" then some InsertKind.inquiry
  else none

/-- One produced completion candidate: its label, optional documentation
card, optional insertion text, and the insert kind passed to the
`antdRush.afterCompletion` command. -/
structure CompletionItem where
  label : String
  documentation : Option PropDoc
  insertText : Option String
  commandInsertKind : Option InsertKind
deriving DecidableEq

/-- The environment of one completion request. `componentName` is the result
of the external `getClosestAntdJsxElementNode`; `classComponentParent` is
whether `getParentsWhen` found an enclosing class extending the React
component base; `addHandlerPrefix` is modelled from the spec: the insertion
helper (source in `insertion`, outside the embedded files) that derives the
emitted handler reference from the handler name. -/
structure CompletionEnv where
  token : Bool
  triggerCharacter : Option String
  componentName : Option String
  classComponentParent : Bool
  antdComponentMap : List (String × ComponentInfo)
  antdDocJson : List (String × List (String × PropDoc))
  addHandlerPrefix : String → String

/-- `getHandlerDocument`: optional-chained lookup
`antdDocJson[lang]?.[componentName]?.[handlerName]`, composed into a card by
an external formatter (the card payload is the `PropDoc` itself here). -/
def getHandlerDocument (docJson : List (String × List (String × PropDoc)))
    (componentName handlerName : String) : Option PropDoc :=
  (List.lookup componentName docJson).bind (fun m => List.lookup handlerName m)

/-- `transformHandlerToItem`: build one candidate. The effective trigger
character is `triggerChar || '#'` (JavaScript falsiness: absent or empty
string falls back to `'#'`); `insertKind` is looked up in
`insertKindMapping`; only the `direct` and `inquiry` branches assign
`insertText`. -/
def transformHandlerToItem (env : CompletionEnv) (componentName handlerName : String) :
    CompletionItem :=
  let doc := getHandlerDocument env.antdDocJson componentName handlerName
  let triggerChar :=
    match env.triggerCharacter with
    | none => "#"
    | some s => if s == "" then "#" else s
  let insertKind := insertKindMapping triggerChar
  let insertText : Option String :=
    match insertKind with
    | some InsertKind.direct =>
      some (handlerName ++ "=\x7b" ++ (if env.classComponentParent then "this." else "") ++
        env.addHandlerPrefix handlerName ++ "\x7d ")
    | some InsertKind.inquiry => some handlerName
    | none => none
  { label := handlerName
    documentation := doc
    insertText := insertText
    commandInsertKind := insertKind }

/-- `provideCompletionItems`: return `[]` when the token is already
cancelled or no enclosing JSX element resolves; reading `.methods` off a
missing catalog entry (`antdComponentMap[componentName].methods`) throws a
`TypeError`; an absent `methods` list yields `[]`; otherwise one candidate
per handler. -/
def provideCompletionItems (env : CompletionEnv) : Except JsError (List CompletionItem) :=
  if env.token then Except.ok []
  else
    match env.componentName with
    | none => Except.ok []
    | some componentName =>
      match List.lookup componentName env.antdComponentMap with
      | none => Except.error JsError.typeError
      | some info =>
        match info.methods with
        | none => Except.ok []
        | some availableHandler =>
          Except.ok (availableHandler.map (fun h => transformHandlerToItem env componentName h))

/-- A hover request whose container-symbol lookup yields the empty string
(not `null`): the guard `if (interaceName === null)` passes it through. -/
def hoverEnvEmptySymbol : HoverEnv where
  token := false
  propText := "x"
  definitions := [⟨"/node_modules/antd/es/button/index.d.ts"⟩]
  typeDefinitions := []
  matchNodeModules := fun _ => true
  getContainerSymbolAtLocation := fun _ => some ""
  getClosetAntdJsxElementNode := none
  matchAntdModule := fun _ => none
  antdComponentMap := []
  antdDocJson := []
  rawTableJson := []

/-- A hover request where the catalog has `"Button"` with handler
`"onClick"`, the documentation table has a record for `"Button"`, but the
record omits the hovered prop `"onClick"`. -/
def hoverEnvMissingProp : HoverEnv where
  token := false
  propText := "onClick"
  definitions := []
  typeDefinitions := [⟨"/node_modules/antd/es/button/Button.d.ts"⟩]
  matchNodeModules := fun _ => true
  getContainerSymbolAtLocation := fun _ => some "onClick"
  getClosetAntdJsxElementNode := some "Button"
  matchAntdModule := fun _ => some "button"
  antdComponentMap := [("Button", ⟨some ["onClick"]⟩)]
  antdDocJson := [("Button", [])]
  rawTableJson := []

/-- A hover request where the catalog resolves `"Button"` but the
documentation table has no record for `"Button"` at all. -/
def hoverEnvMissingComponentDoc : HoverEnv where
  token := false
  propText := "onClick"
  definitions := []
  typeDefinitions := [⟨"/node_modules/antd/es/button/Button.d.ts"⟩]
  matchNodeModules := fun _ => true
  getContainerSymbolAtLocation := fun _ => some "onClick"
  getClosetAntdJsxElementNode := some "Button"
  matchAntdModule := fun _ => some "button"
  antdComponentMap := [("Button", ⟨some ["onClick"]⟩)]
  antdDocJson := []
  rawTableJson := []

/-- A hover request whose cancellation token is already cancelled and whose
remaining inputs let every resolution step succeed. -/
def hoverEnvCancelled : HoverEnv where
  token := true
  propText := "onClick"
  definitions := []
  typeDefinitions := [⟨"/node_modules/antd/es/button/Button.d.ts"⟩]
  matchNodeModules := fun _ => true
  getContainerSymbolAtLocation := fun _ => some "onClick"
  getClosetAntdJsxElementNode := some "Button"
  matchAntdModule := fun _ => some "button"
  antdComponentMap := [("Button", ⟨some ["onClick"]⟩)]
  antdDocJson := [("Button", [("onClick", ⟨"desc", "function", "-", "3.0"⟩)])]
  rawTableJson := []

/-- A hover request whose definition and type-definition locations all lie
outside the target library's installed module path. -/
def hoverEnvForeign : HoverEnv where
  token := false
  propText := "onClick"
  definitions := [⟨"/src/app/Button.tsx"⟩]
  typeDefinitions := [⟨"/src/app/Button.tsx"⟩]
  matchNodeModules := fun _ => false
  getContainerSymbolAtLocation := fun _ => some "onClick"
  getClosetAntdJsxElementNode := some "Button"
  matchAntdModule := fun _ => some "button"
  antdComponentMap := [("Button", ⟨some ["onClick"]⟩)]
  antdDocJson := [("Button", [("onClick", ⟨"desc", "function", "-", "3.0"⟩)])]
  rawTableJson := []

/-- A completion request whose cancellation token is already cancelled. -/
def completionEnvCancelled : CompletionEnv where
  token := true
  triggerCharacter := some "#"
  componentName := some "Button"
  classComponentParent := false
  antdComponentMap := [("Button", ⟨some ["onClick"]⟩)]
  antdDocJson := []
  addHandlerPrefix := fun h => "handle" ++ h

/-- A completion request whose cursor is not inside any known component's
JSX element (`getClosestAntdJsxElementNode` returned `null`). -/
def completionEnvNoJsx : CompletionEnv where
  token := false
  triggerCharacter := some "#"
  componentName := none
  classComponentParent := false
  antdComponentMap := [("Button", ⟨some ["onClick"]⟩)]
  antdDocJson := []
  addHandlerPrefix := fun h => "handle" ++ h

/-- A completion request triggered by a character that is neither `'!'` nor
`'#'`. -/
def completionEnvOtherTrigger : CompletionEnv where
  token := false
  triggerCharacter := some "x"
  componentName := some "Button"
  classComponentParent := false
  antdComponentMap := [("Button", ⟨some ["onClick"]⟩)]
  antdDocJson := []
  addHandlerPrefix := fun h => "handle" ++ h

/-- The end-to-end completion scenario: `<Button #` at the cursor, catalog
mapping `"Button"` to handlers `["onClick", "onFocus"]`. -/
def completionEnvInquiry : CompletionEnv where
  token := false
  triggerCharacter := some "#"
  componentName := some "Button"
  classComponentParent := false
  antdComponentMap := [("Button", ⟨some ["onClick", "onFocus"]⟩)]
  antdDocJson := []
  addHandlerPrefix := fun h => "handle" ++ h

end AntdRush

namespace AntdRush

section ListLemmas

/-- `find?` returns the first element satisfying the predicate: if nothing in
the prefix satisfies it and `x` does, the result is `x`. -/
theorem find?_append_first {α : Type} {p : α → Bool} (l₁ l₂ : List α) (x : α)
    (h1 : ∀ y ∈ l₁, p y = false) (hx : p x = true) :
    List.find? p (l₁ ++ x :: l₂) = some x := by
  induction l₁ with
  | nil => simpa using List.find?_cons_of_pos l₂ hx
  | cons a t ih =>
    have ha : p a = false := h1 a (by simp)
    simp only [List.cons_append]
    rw [List.find?_cons_of_neg _ (by simp [ha])]
    exact ih (fun y hy => h1 y (by simp [hy]))

end ListLemmas

section CharLemmas

/-- For a valid small codepoint, `Char.ofNat` round-trips through `toNat`. -/
theorem charToNat_ofNat {n : Nat} (h : n < 55296) : (Char.ofNat n).toNat = n := by
  have hv : n.isValidChar := Or.inl h
  unfold Char.ofNat
  rw [dif_pos hv]
  rfl

/-- ASCII lowercasing is idempotent. -/
theorem toLower_toLower (c : Char) : c.toLower.toLower = c.toLower := by
  unfold Char.toLower
  by_cases h : c.toNat ≥ 65 ∧ c.toNat ≤ 90
  · rw [if_pos h]
    have ht : (Char.ofNat (c.toNat + 32)).toNat = c.toNat + 32 :=
      charToNat_ofNat (by omega)
    rw [if_neg]
    rw [ht]
    omega
  · rw [if_neg h, if_neg h]

/-- Lowercasing never produces the separator `'.'`. -/
theorem toLower_ne_dot {c : Char} (h : c ≠ '.') : c.toLower ≠ '.' := by
  unfold Char.toLower
  by_cases h65 : c.toNat ≥ 65 ∧ c.toNat ≤ 90
  · rw [if_pos h65]
    intro he
    have : (Char.ofNat (c.toNat + 32)).toNat = c.toNat + 32 :=
      charToNat_ofNat (by omega)
    rw [he] at this
    have hdot : ('.' : Char).toNat = 46 := by decide
    omega
  · rwa [if_neg h65]

end CharLemmas

/-- C9: Name normalization is idempotent: for every string `s`,
`normalizeName (normalizeName s) = normalizeName s`, where `normalizeName`
removes all `'.'` characters and lowercases the remainder. -/
theorem normalizeName_idempotent (s : String) :
    normalizeName (normalizeName s) = normalizeName s := by
  unfold normalizeName
  congr 1
  have hfilter :
      ((s.data.filter (fun c => c != '.')).map Char.toLower).filter (fun c => c != '.') =
        (s.data.filter (fun c => c != '.')).map Char.toLower := by
    rw [List.filter_eq_self]
    intro a ha
    rcases List.mem_map.1 ha with ⟨b, hb, rfl⟩
    have hbne : b ≠ '.' := by
      have := List.of_mem_filter hb
      simpa using this
    simpa using toLower_ne_dot hbne
  rw [show ((String.mk ((s.data.filter (fun c => c != '.')).map Char.toLower)).data) =
      (s.data.filter (fun c => c != '.')).map Char.toLower from rfl]
  rw [hfilter, List.map_map]
  exact List.map_congr_left (fun a _ => toLower_toLower a)

/-- C1: `tryMatchComponentName` tries, in order, (1) exact match of the
normalized symbol name, (2) exact match of the normalized folder name,
(3) match of the normalized concatenation `folderName + symbolName`, each
against the catalog keys in order, and returns the first key that hits,
`none` when all three tiers fail. When the symbol name matches a catalog key
under normalization, that key is returned regardless of the folder name, and
`resolve "Column" "Table"` on the catalog `["TableColumn"]` yields
`"TableColumn"`. -/
theorem tryMatchComponentName_resolution_order :
    (∀ (ks₁ ks₂ : List String) (k s f : String),
      (∀ k' ∈ ks₁, normalizeName k' ≠ normalizeName s) →
      normalizeName k = normalizeName s →
      tryMatchComponentName (ks₁ ++ k :: ks₂) s f = some k) ∧
    (∀ (keys ks₁ ks₂ : List String) (k s f : String),
      keys = ks₁ ++ k :: ks₂ →
      (∀ k' ∈ keys, normalizeName k' ≠ normalizeName s) →
      (∀ k' ∈ ks₁, normalizeName k' ≠ normalizeName f) →
      normalizeName k = normalizeName f →
      tryMatchComponentName keys s f = some k) ∧
    (∀ (keys ks₁ ks₂ : List String) (k s f : String),
      keys = ks₁ ++ k :: ks₂ →
      (∀ k' ∈ keys, normalizeName k' ≠ normalizeName s ∧ normalizeName k' ≠ normalizeName f) →
      (∀ k' ∈ ks₁, normalizeName k' ≠ normalizeName (f ++ s)) →
      normalizeName k = normalizeName (f ++ s) →
      tryMatchComponentName keys s f = some k) ∧
    (∀ (keys : List String) (s f : String),
      (∀ k' ∈ keys, normalizeName k' ≠ normalizeName s ∧ normalizeName k' ≠ normalizeName f ∧
        normalizeName k' ≠ normalizeName (f ++ s)) →
      tryMatchComponentName keys s f = none) ∧
    tryMatchComponentName ["TableColumn"] "Column" "Table" = some "TableColumn" ∧
    tryMatchComponentName ["TableColumn"] "Column" "Grid" = none := by
  refine ⟨?_, ?_, ?_, ?_, ?_, ?_⟩
  · intro ks₁ ks₂ k s f h1 hk
    unfold tryMatchComponentName
    rw [find?_append_first ks₁ ks₂ k
      (fun y hy => beq_eq_false_iff_ne.mpr (h1 y hy)) (beq_iff_eq.mpr hk)]
  · intro keys ks₁ ks₂ k s f hkeys hs h1 hk
    subst hkeys
    unfold tryMatchComponentName
    rw [List.find?_eq_none.mpr (fun x hx => by simpa using hs x hx)]
    rw [find?_append_first ks₁ ks₂ k
      (fun y hy => beq_eq_false_iff_ne.mpr (h1 y hy)) (beq_iff_eq.mpr hk)]
  · intro keys ks₁ ks₂ k s f hkeys hsf h1 hk
    subst hkeys
    unfold tryMatchComponentName
    rw [List.find?_eq_none.mpr (fun x hx => by simpa using (hsf x hx).1)]
    rw [List.find?_eq_none.mpr (fun x hx => by simpa using (hsf x hx).2)]
    rw [find?_append_first ks₁ ks₂ k
      (fun y hy => beq_eq_false_iff_ne.mpr (h1 y hy)) (beq_iff_eq.mpr hk)]
  · intro keys s f h
    unfold tryMatchComponentName
    rw [List.find?_eq_none.mpr (fun x hx => by simpa using (h x hx).1)]
    rw [List.find?_eq_none.mpr (fun x hx => by simpa using (h x hx).2.1)]
    rw [List.find?_eq_none.mpr (fun x hx => by simpa using (h x hx).2.2)]
  · rfl
  · rfl

/-- Witness for C1: the first-tier rule applied to the one-key catalog
`["Table"]` with symbol `"Table"` and an unrelated folder name. -/
theorem tryMatchComponentName_resolution_order_witness :
    tryMatchComponentName ["Table"] "Table" "AnythingElse" = some "Table" :=
  tryMatchComponentName_resolution_order.1 [] [] "Table" "Table" "AnythingElse"
    (by intro k' hk'; simp at hk') rfl

/-- C8: the symbol classifier returns `props` exactly when the first
character's uppercase form differs from the character itself, `component`
otherwise; in particular `"Button"` is a component and `"onClick"` a prop. -/
theorem getAstNodeType_first_char_rule :
    (∀ (name : String) (c : Char) (rest : List Char), name.data = c :: rest →
      getAstNodeType name =
        some (if c.toUpper ≠ c then NodeType.props else NodeType.component)) ∧
    getAstNodeType "Button" = some NodeType.component ∧
    getAstNodeType "onClick" = some NodeType.props := by
  refine ⟨?_, ?_, ?_⟩
  · intro name c rest h
    unfold getAstNodeType
    rw [h]
  · rfl
  · rfl

/-- Witness for C8: the first-character rule evaluated at `"Button"`. -/
theorem getAstNodeType_first_char_rule_witness :
    getAstNodeType "Button" =
      some (if ('B' : Char).toUpper ≠ 'B' then NodeType.props else NodeType.component) :=
  getAstNodeType_first_char_rule.1 "Button" 'B' ['u', 't', 't', 'o', 'n'] rfl

/-- C10: the classifier fails on the empty name (`name[0]` is `undefined`
and `toUpperCase()` throws), and a hover request whose container-symbol
lookup yields the empty string — which passes the `=== null` guard — crashes
with that `TypeError` instead of returning an empty result. -/
theorem getAstNodeType_empty_crash :
    getAstNodeType "" = none ∧
    (∀ (env : HoverEnv) (loc : Location),
      getDefinitionInAntdModule env.matchNodeModules env.definitions env.typeDefinitions =
        some loc →
      env.getContainerSymbolAtLocation loc = some "" →
      provideHover env = Except.error JsError.typeError) := by
  constructor
  · rfl
  · intro env loc h1 h2
    simp only [provideHover, h1, h2]
    rfl

/-- Witness for C10: the crash realized on a concrete request whose
container symbol is the empty string. -/
theorem getAstNodeType_empty_crash_witness :
    provideHover hoverEnvEmptySymbol = Except.error JsError.typeError :=
  getAstNodeType_empty_crash.2 hoverEnvEmptySymbol
    ⟨"/node_modules/antd/es/button/index.d.ts"⟩ rfl rfl

/-- Counterexample to C2: the catalog has `"Button"` with handler
`"onClick"`, the documentation table has a `"Button"` record but omits the
hovered prop `"onClick"`; the request fails with a generic `TypeError`
(reading `.description` of `undefined`), not with the descriptive
`antdRushErrorMsg` internal-consistency error. -/
theorem provideHover_missing_prop_not_descriptive :
    provideHover hoverEnvMissingProp = Except.error JsError.typeError ∧
    ∀ msg, provideHover hoverEnvMissingProp ≠ Except.error (JsError.antdRushError msg) := by
  have h : provideHover hoverEnvMissingProp = Except.error JsError.typeError := rfl
  refine ⟨h, ?_⟩
  intro msg hcontra
  rw [h] at hcontra
  simp at hcontra

/-- C2 (amended): in the props hover path, a documentation table lacking the
record for the resolved component fails with the descriptive
internal-consistency error; a documentation table having the component
record but lacking the specific hovered prop fails with a generic
`TypeError`; neither case silently returns an empty result. -/
theorem provideHover_consistency_error_paths :
    ∀ (env : HoverEnv) (loc : Location) (interaceName antdComponentName fuzzy : String),
      getDefinitionInAntdModule env.matchNodeModules env.definitions env.typeDefinitions =
        some loc →
      env.getContainerSymbolAtLocation loc = some interaceName →
      getAstNodeType interaceName = some NodeType.props →
      env.getClosetAntdJsxElementNode = some antdComponentName →
      fuzzySearchComponentMapping (List.map Prod.fst env.antdComponentMap) antdComponentName =
        some fuzzy →
      (List.lookup fuzzy env.antdDocJson = none →
        provideHover env =
          Except.error (JsError.antdRushError ("did not match component for " ++ fuzzy))) ∧
      (∀ m, List.lookup fuzzy env.antdDocJson = some m →
        List.lookup env.propText m = none →
        provideHover env = Except.error JsError.typeError) := by
  intro env loc interaceName antdComponentName fuzzy h1 h2 h3 h4 h5
  constructor
  · intro hnone
    simp only [provideHover, h1, h2, h3, h4, h5, hnone]
  · intro m hm hp
    simp only [provideHover, h1, h2, h3, h4, h5, hm, hp]

/-- Witness for C2 (amended): the descriptive error realized on a concrete
request whose documentation table lacks the `"Button"` record. -/
theorem provideHover_consistency_error_paths_witness :
    provideHover hoverEnvMissingComponentDoc =
      Except.error (JsError.antdRushError "did not match component for Button") :=
  (provideHover_consistency_error_paths hoverEnvMissingComponentDoc
    ⟨"/node_modules/antd/es/button/Button.d.ts"⟩ "onClick" "Button" "Button"
    rfl rfl rfl rfl rfl).1 rfl

/-- C3: when the enclosing JSX element does not resolve to a known component
(`componentName` is `null`), or the resolved component's catalog entry has
no handler list, `provideCompletionItems` returns the empty list and raises
no exception. -/
theorem provideCompletionItems_absence_empty :
    ∀ env : CompletionEnv,
      (env.componentName = none ∨
        ∃ k info, env.componentName = some k ∧
          List.lookup k env.antdComponentMap = some info ∧ info.methods = none) →
      provideCompletionItems env = Except.ok [] := by
  intro env h
  rcases h with hnone | ⟨k, info, hk, hlk, hm⟩
  · cases htok : env.token with
    | true => simp [provideCompletionItems, htok]
    | false => simp [provideCompletionItems, htok, hnone]
  · cases htok : env.token with
    | true => simp [provideCompletionItems, htok]
    | false => simp [provideCompletionItems, htok, hk, hlk, hm]

/-- Witness for C3: the empty result realized on a concrete request whose
cursor is outside any known component's JSX element. -/
theorem provideCompletionItems_absence_empty_witness :
    provideCompletionItems completionEnvNoJsx = Except.ok [] :=
  provideCompletionItems_absence_empty completionEnvNoJsx (Or.inl rfl)

/-- Counterexample to C4: a hover request whose token is already cancelled
still resolves fully and returns a hover card — `provideHover` performs no
cancellation check. -/
theorem provideHover_ignores_cancellation :
    hoverEnvCancelled.token = true ∧
    provideHover hoverEnvCancelled =
      Except.ok (some (Hover.propsCard "desc" "function" "-" "3.0")) :=
  ⟨rfl, rfl⟩

/-- C4 (amended): completion resolution checks its cancellation token at
entry and returns an empty result when already cancelled; hover resolution
performs no cancellation check at all — its result is independent of the
token. -/
theorem cancellation_check_at_entry :
    (∀ env : CompletionEnv, env.token = true → provideCompletionItems env = Except.ok []) ∧
    (∀ (env : HoverEnv) (b : Bool),
      provideHover { env with token := b } = provideHover env) := by
  constructor
  · intro env h
    simp [provideCompletionItems, h]
  · intro env b
    cases env
    rfl

/-- Witness for C4 (amended): the cancelled-completion branch realized on a
concrete request. -/
theorem cancellation_check_at_entry_witness :
    provideCompletionItems completionEnvCancelled = Except.ok [] :=
  cancellation_check_at_entry.1 completionEnvCancelled rfl

/-- C5: any location `getDefinitionInAntdModule` returns passed the
`matchNodeModules` filter, and a request all of whose definition and
type-definition locations lie outside the target module path produces no
hover result. -/
theorem hover_foreign_filtering :
    (∀ (mnm : String → Bool) (defs tdefs : List Location) (l : Location),
      getDefinitionInAntdModule mnm defs tdefs = some l → mnm l.path = true) ∧
    (∀ env : HoverEnv,
      (∀ l, l ∈ env.definitions ∨ l ∈ env.typeDefinitions →
        env.matchNodeModules l.path = false) →
      provideHover env = Except.ok none) := by
  constructor
  · intro mnm defs tdefs l h
    simp only [getDefinitionInAntdModule] at h
    cases htd : tdefs.filter (fun d => mnm d.path) with
    | cons t ts =>
      rw [htd] at h
      simp only [Option.some.injEq] at h
      subst h
      have hmem : t ∈ tdefs.filter (fun d => mnm d.path) := by
        rw [htd]; exact List.mem_cons_self t ts
      exact (List.mem_filter.1 hmem).2
    | nil =>
      rw [htd] at h
      cases hd : defs.filter (fun d => mnm d.path) with
      | cons d ds =>
        rw [hd] at h
        simp only [Option.some.injEq] at h
        subst h
        have hmem : d ∈ defs.filter (fun x => mnm x.path) := by
          rw [hd]; exact List.mem_cons_self d ds
        exact (List.mem_filter.1 hmem).2
      | nil =>
        rw [hd] at h
        simp at h
  · intro env h
    have h1 : env.definitions.filter (fun d => env.matchNodeModules d.path) = [] :=
      List.filter_eq_nil_iff.mpr (fun l hl => by simp [h l (Or.inl hl)])
    have h2 : env.typeDefinitions.filter (fun d => env.matchNodeModules d.path) = [] :=
      List.filter_eq_nil_iff.mpr (fun l hl => by simp [h l (Or.inr hl)])
    have hdef : getDefinitionInAntdModule env.matchNodeModules env.definitions
        env.typeDefinitions = none := by
      simp only [getDefinitionInAntdModule, h1, h2]
    simp only [provideHover, hdef]

/-- Witness for C5: the empty hover realized on a concrete request whose
locations all fail the module-path filter. -/
theorem hover_foreign_filtering_witness :
    provideHover hoverEnvForeign = Except.ok none :=
  hover_foreign_filtering.2 hoverEnvForeign (fun _ _ => rfl)

/-- C7: when a type-definition location survives the module-path filter, the
result is a surviving type-definition (even if plain definitions also
survive); when no type-definition survives, the result is the first
surviving plain definition; when neither survives, the result is `null`. -/
theorem getDefinitionInAntdModule_prefers_typeDefinition :
    ∀ (mnm : String → Bool) (defs tdefs : List Location),
      (∀ t d, t ∈ tdefs → mnm t.path = true → d ∈ defs → mnm d.path = true →
        ∃ t', getDefinitionInAntdModule mnm defs tdefs = some t' ∧
          t' ∈ tdefs ∧ mnm t'.path = true) ∧
      (tdefs.filter (fun l => mnm l.path) = [] →
        getDefinitionInAntdModule mnm defs tdefs =
          (defs.filter (fun l => mnm l.path)).head?) ∧
      ((∀ l ∈ tdefs, mnm l.path = false) → (∀ l ∈ defs, mnm l.path = false) →
        getDefinitionInAntdModule mnm defs tdefs = none) := by
  intro mnm defs tdefs
  refine ⟨?_, ?_, ?_⟩
  · intro t d ht hmt _ _
    cases htd : tdefs.filter (fun l => mnm l.path) with
    | nil =>
      exfalso
      have : t ∈ tdefs.filter (fun l => mnm l.path) := List.mem_filter.2 ⟨ht, hmt⟩
      rw [htd] at this
      simp at this
    | cons t' ts =>
      refine ⟨t', ?_, ?_⟩
      · simp only [getDefinitionInAntdModule, htd]
      · have hmem : t' ∈ tdefs.filter (fun l => mnm l.path) := by
          rw [htd]; exact List.mem_cons_self t' ts
        exact ⟨(List.mem_filter.1 hmem).1, (List.mem_filter.1 hmem).2⟩
  · intro htd
    simp only [getDefinitionInAntdModule, htd]
    cases hd : defs.filter (fun l => mnm l.path) <;> simp
  · intro ht hd
    have h1 : tdefs.filter (fun l => mnm l.path) = [] :=
      List.filter_eq_nil_iff.mpr (fun l hl => by simp [ht l hl])
    have h2 : defs.filter (fun l => mnm l.path) = [] :=
      List.filter_eq_nil_iff.mpr (fun l hl => by simp [hd l hl])
    simp only [getDefinitionInAntdModule, h1, h2]

/-- Witness for C7: with one plain definition and one type definition both
under the module path, the returned location is the type definition. -/
theorem getDefinitionInAntdModule_prefers_typeDefinition_witness :
    ∃ t', getDefinitionInAntdModule (fun _ => true)
        [({ path := "/node_modules/antd/es/table/index.d.ts" } : Location)]
        [({ path := "/node_modules/antd/es/table/interface.d.ts" } : Location)] = some t' ∧
      t' ∈ [({ path := "/node_modules/antd/es/table/interface.d.ts" } : Location)] ∧
      (fun _ => true) t'.path = true :=
  (getDefinitionInAntdModule_prefers_typeDefinition (fun _ => true)
    [{ path := "/node_modules/antd/es/table/index.d.ts" }]
    [{ path := "/node_modules/antd/es/table/interface.d.ts" }]).1
    { path := "/node_modules/antd/es/table/interface.d.ts" }
    { path := "/node_modules/antd/es/table/index.d.ts" }
    (by simp) rfl (by simp) rfl

/-- Counterexample to C6: with trigger character `"x"` (neither `'!'` nor
`'#'`), the produced candidate has no insert kind and no insertion text —
in particular its insertion text is not the handler name, so the trigger
does not fall back to the inquiry form. -/
theorem completion_other_trigger_no_inquiry :
    provideCompletionItems completionEnvOtherTrigger =
      Except.ok [{ label := "onClick", documentation := none,
                   insertText := none, commandInsertKind := none }] ∧
    (transformHandlerToItem completionEnvOtherTrigger "Button" "onClick").insertText ≠
      some "onClick" := by
  refine ⟨rfl, ?_⟩
  intro hcontra
  have h0 : (transformHandlerToItem completionEnvOtherTrigger "Button" "onClick").insertText =
      none := rfl
  rw [h0] at hcontra
  exact Option.noConfusion hcontra

/-- C6 (amended): trigger character `'!'` yields the direct assignment form;
an absent trigger character, the empty string, or `'#'` yields the inquiry
form whose insertion text is exactly the handler name; any other trigger
character yields a candidate with no insert kind and no insertion text.
In the end-to-end scenario (`<Button #`, catalog `"Button" →
["onClick", "onFocus"]`), exactly two inquiry-style candidates are
produced. -/
theorem transformHandlerToItem_insert_style :
    (∀ (env : CompletionEnv) (c h : String),
      env.triggerCharacter = some "!" →
        (transformHandlerToItem env c h).commandInsertKind = some InsertKind.direct ∧
        (transformHandlerToItem env c h).insertText =
          some (h ++ "=\x7b" ++ (if env.classComponentParent then "this." else "") ++
            env.addHandlerPrefix h ++ "\x7d ")) ∧
    (∀ (env : CompletionEnv) (c h : String),
      (env.triggerCharacter = none ∨ env.triggerCharacter = some "#" ∨
        env.triggerCharacter = some "") →
        (transformHandlerToItem env c h).commandInsertKind = some InsertKind.inquiry ∧
        (transformHandlerToItem env c h).insertText = some h) ∧
    (∀ (env : CompletionEnv) (c h s : String),
      env.triggerCharacter = some s → s ≠ "!" → s ≠ "#" → s ≠ "" →
        (transformHandlerToItem env c h).commandInsertKind = none ∧
        (transformHandlerToItem env c h).insertText = none) ∧
    provideCompletionItems completionEnvInquiry =
      Except.ok
        [{ label := "onClick", documentation := none, insertText := some "onClick",
           commandInsertKind := some InsertKind.inquiry },
         { label := "onFocus", documentation := none, insertText := some "onFocus",
           commandInsertKind := some InsertKind.inquiry }] := by
  refine ⟨?_, ?_, ?_, ?_⟩
  · intro env c h htr
    obtain ⟨tok, trig, comp, cls, amap, adoc, ahp⟩ := env
    have htr' : trig = some "!" := htr
    subst htr'
    exact ⟨rfl, rfl⟩
  · intro env c h htr
    obtain ⟨tok, trig, comp, cls, amap, adoc, ahp⟩ := env
    rcases htr with htr | htr | htr <;>
      · have htr' := htr
        simp only at htr'
        subst htr'
        exact ⟨rfl, rfl⟩
  · intro env c h s htr hne1 hne2 hne3
    obtain ⟨tok, trig, comp, cls, amap, adoc, ahp⟩ := env
    have htr' : trig = some s := htr
    subst htr'
    have e1 : (s == "") = false := beq_eq_false_iff_ne.mpr hne3
    have e2 : (s == "!") = false := beq_eq_false_iff_ne.mpr hne1
    have e3 : (s == "#") = false := beq_eq_false_iff_ne.mpr hne2
    refine ⟨?_, ?_⟩ <;> simp [transformHandlerToItem, insertKindMapping, e1, e2, e3]
  · rfl

/-- Witness for C6 (amended): the inquiry-form rule evaluated on the
end-to-end scenario's environment. -/
theorem transformHandlerToItem_insert_style_witness :
    (transformHandlerToItem completionEnvInquiry "Button" "onClick").commandInsertKind =
      some InsertKind.inquiry ∧
    (transformHandlerToItem completionEnvInquiry "Button" "onClick").insertText =
      some "onClick" :=
  transformHandlerToItem_insert_style.2.1 completionEnvInquiry "Button" "onClick"
    (Or.inr (Or.inl rfl))

end AntdRush
